import Mathlib

/-!
Verification of `app/document_manager.py` from the pdf-image-replace backend.

The Python module orchestrates two external libraries:
  * PIL (`Image.open`, `.mode`, `.convert`, `.tobytes`, `.width`, `.height`),
  * PyMuPDF / fitz (`fitz.open`, `page.get_images`, `page.get_image_rects`,
    `doc.xref_is_image`, `doc.extract_image`, `fitz.Pixmap`,
    `page.replace_image`, `doc.save(..., incremental=True)`),
plus the filesystem (one stored PDF file per document identifier).

Shallow embedding choices:
  * Python `bytes` are `List Nat`; Python `str` is `String` (and `List Char`
    where character-level reasoning about paths is needed).
  * PDF page-coordinate floats are modelled as `ℚ`.
  * The filesystem of the document store is an association list
    `doc_id ↦ file bytes`; writing a file conses a (shadowing) entry, which
    models overwriting the file at that path.  Path-string resolution itself
    (`_document_path`) is modelled separately at the character level.
  * Engine and decoder behaviour that the Python code merely consumes is
    passed in as explicit function parameters (`parse`, `decode`,
    `saveDelta`), so theorems quantify over every behaviour those libraries
    may exhibit; per-xref engine answers (`get_image_rects`,
    `xref_is_image`, `extract_image`) are bundled into each image entry.
  * `doc.save(path, incremental=True, ...)` is modelled as appending
    engine-chosen bytes to the stored file, which is exactly what an
    incremental PDF save does; `saveDelta` supplies the appended bytes.
  * Python exceptions become an error enum following the spec's taxonomy:
    `FileNotFoundError` ↦ `notFound`, `ValueError "Invalid page number"` ↦
    `invalidPage`, `ValueError "Image index not found on page"` ↦
    `imageIndexNotFound`, PIL's decode failure ↦ `decodeError`, and a raw
    fitz parse failure (outside the taxonomy) ↦ `engineFailure`.
-/

/-- Error taxonomy of the manager (spec §7), plus `engineFailure` for raw
fitz exceptions that are outside the taxonomy (e.g. `fitz.open` on a file
that is not a PDF). -/
inductive AppError where
  | notFound
  | invalidPage
  | imageIndexNotFound
  | decodeError
  | engineFailure
deriving DecidableEq

/-! ## PIL model (`_pixmap_from_bytes`, lines 47-64) -/

/-- PIL channel modes that matter to the code: it only tests membership in
`{"RGB", "RGBA"}` and converts to `"RGBA"` or `"RGB"`; every other mode is
represented by the remaining constructors. -/
inductive PILMode where
  | RGB
  | RGBA
  | L
  | P
  | CMYK
deriving DecidableEq, Inhabited

/-- Canonical per-pixel content of a decoded image (the RGBA reading of the
pixel, whatever the storage mode). -/
structure RGBAVal where
  r : Nat
  g : Nat
  b : Nat
  a : Nat
deriving DecidableEq, Inhabited

/-- A decoded PIL image: current mode, reported dimensions, and pixel
content.  `pixels` is not forced to have length `width * height`: a decoder
bug (the situation spec §4.1 contemplates) is representable as a mismatch. -/
structure PILImage where
  mode : PILMode
  width : Nat
  height : Nat
  pixels : List RGBAVal
deriving DecidableEq, Inhabited

/-- `pil_img.convert(m)`: the canonical pixel content is kept, the mode
changes.  (PIL's conversions re-pack the same visual content; byte layout
per mode is produced by `tobytes` below.) -/
def PILImage.convert (img : PILImage) (m : PILMode) : PILImage :=
  { img with mode := m }

/-- Byte packing of RGBA rows, 4 bytes per pixel. -/
def packRGBA : List RGBAVal → List Nat
  | [] => []
  | p :: ps => p.r :: p.g :: p.b :: p.a :: packRGBA ps

/-- Byte packing of RGB rows, 3 bytes per pixel. -/
def packRGB : List RGBAVal → List Nat
  | [] => []
  | p :: ps => p.r :: p.g :: p.b :: packRGB ps

/-- Byte packing of single-channel rows (the code never calls `tobytes` in a
mode other than RGB/RGBA, so this branch is irrelevant to the claims). -/
def packOne : List RGBAVal → List Nat
  | [] => []
  | p :: ps => p.r :: packOne ps

/-- `pil_img.tobytes()`: byte-packed samples in the image's current mode. -/
def PILImage.tobytes (img : PILImage) : List Nat :=
  match img.mode with
  | .RGBA => packRGBA img.pixels
  | .RGB => packRGB img.pixels
  | _ => packOne img.pixels

/-- The two fitz colorspaces the code constructs pixmaps with. -/
inductive Colorspace where
  | csRGB
  | csRGBA
deriving DecidableEq, Inhabited

/-- Channel count of a colorspace. -/
def Colorspace.channels : Colorspace → Nat
  | .csRGB => 3
  | .csRGBA => 4

/-- A `fitz.Pixmap` as constructed by the code: colorspace, dimensions, and
the samples buffer handed over. -/
structure Pixmap where
  colorspace : Colorspace
  width : Nat
  height : Nat
  samples : List Nat
deriving DecidableEq, Inhabited

/-- `DocumentManager._pixmap_from_bytes` (lines 47-64).  `decode` models
`PIL.Image.open` on the raw bytes: `none` is a decode failure
(`UnidentifiedImageError`), mapped to the taxonomy's `decodeError`.
Note the source contains no length assertion on the samples buffer: whatever
`tobytes` returns is passed to the `fitz.Pixmap` constructor. -/
def pixmap_from_bytes (decode : List Nat → Option PILImage)
    (raw_bytes : List Nat) : Except AppError Pixmap :=
  match decode raw_bytes with
  | none => .error .decodeError
  | some img0 =>
    -- `if pil_img.mode not in {"RGB", "RGBA"}: pil_img = pil_img.convert("RGBA")`
    let img := if img0.mode ≠ .RGB ∧ img0.mode ≠ .RGBA
               then img0.convert .RGBA else img0
    if img.mode = .RGBA then
      .ok { colorspace := .csRGBA, width := img.width, height := img.height,
            samples := img.tobytes }
    else
      -- `samples = pil_img.convert("RGB").tobytes()`
      .ok { colorspace := .csRGB, width := img.width, height := img.height,
            samples := (img.convert .RGB).tobytes }

/-! ## fitz engine model -/

/-- A page-space rectangle (`fitz.Rect`); coordinates are rationals standing
in for the Python floats. -/
structure Rect where
  x0 : ℚ
  y0 : ℚ
  x1 : ℚ
  y1 : ℚ
deriving DecidableEq, Inhabited

/-- `rect.width` in fitz. -/
def Rect.width (r : Rect) : ℚ := r.x1 - r.x0

/-- `rect.height` in fitz. -/
def Rect.height (r : Rect) : ℚ := r.y1 - r.y0

/-- The dictionary `doc.extract_image(xref)` returns: `hasImage` models the
`isinstance(image_info, dict) and "image" in image_info` test, the other
fields model `image_info.get(...)` lookups (present in every real engine
answer, so the `.get` defaults are elided). -/
structure ExtractInfo where
  hasImage : Bool
  image : List Nat
  width : Nat
  height : Nat
  ext : String
deriving DecidableEq, Inhabited

/-- One entry of `page.get_images(full=True)`, bundled with the engine's
per-xref answers the loop body queries: `rects` is
`page.get_image_rects(xref)`, `isImageObj` is `doc.xref_is_image(xref)`, and
`extract` is `doc.extract_image(xref)` with `none` modelling the
`RuntimeError` branch. -/
structure ImageEntry where
  xref : Nat
  rects : List Rect
  isImageObj : Bool
  extract : Option ExtractInfo
deriving DecidableEq, Inhabited

/-- A loaded page: its rectangle and the entries `get_images(full=True)`
reports. -/
structure Page where
  rect : Rect
  images : List ImageEntry
deriving DecidableEq, Inhabited

/-- A parsed PDF document as the code observes it through fitz. -/
structure PDFDocument where
  pages : List Page
deriving DecidableEq, Inhabited

/-- `doc.page_count`. -/
def PDFDocument.page_count (d : PDFDocument) : Nat := d.pages.length

/-- The `PageImage` dataclass (lines 16-24).  `preview_base64` keeps the
preview payload; the base64 recoding (an injective re-encoding irrelevant to
every claim) is elided. -/
structure PageImage where
  index : Nat
  bbox : Rect
  width : Nat
  height : Nat
  xref : Nat
  preview_base64 : List Nat
  extension : String
deriving DecidableEq, Inhabited

/-- The inner `for rect in rects` loop (lines 123-136): one occurrence per
placement rectangle, with `counter` incremented after each append. -/
def emitOccurrences (xref : Nat) (info : ExtractInfo) :
    List Rect → Nat → List PageImage
  | [], _ => []
  | r :: rs, counter =>
    { index := counter, bbox := r, width := info.width,
      height := info.height, xref := xref, preview_base64 := info.image,
      extension := info.ext } :: emitOccurrences xref info rs (counter + 1)

/-- The outer `for image_entry in page.get_images(full=True)` loop
(lines 103-136), with the four skip conditions in source order. -/
def collectPageImages : List ImageEntry → Nat → List PageImage
  | [], _ => []
  | e :: rest, counter =>
    if e.rects.isEmpty then
      -- `if not rects: continue`
      collectPageImages rest counter
    else if !e.isImageObj then
      -- `if not doc.xref_is_image(xref): continue`
      collectPageImages rest counter
    else
      match e.extract with
      | none =>
        -- `except RuntimeError: continue`
        collectPageImages rest counter
      | some info =>
        if !info.hasImage then
          -- `if not isinstance(...) or "image" not in image_info: continue`
          collectPageImages rest counter
        else
          emitOccurrences e.xref info e.rects counter
            ++ collectPageImages rest (counter + e.rects.length)

/-- The document store: stored file bytes per document identifier.  A write
conses a shadowing entry (overwrite-at-path semantics). -/
abbrev Store := List (String × List Nat)

/-- `DocumentManager.list_page_images` (lines 92-138).  `parse` models
`fitz.open` on the stored bytes; `none` is a fitz parse exception. -/
def list_page_images (parse : List Nat → Option PDFDocument) (store : Store)
    (doc_id : String) (page_number : Int) :
    Except AppError (List PageImage × (ℚ × ℚ)) :=
  match store.lookup doc_id with
  | none => .error .notFound            -- `_ensure_document` (lines 37-41)
  | some fileBytes =>
    match parse fileBytes with
    | none => .error .engineFailure     -- `fitz.open` raised
    | some doc =>
      if ¬ (1 ≤ page_number ∧ page_number ≤ (doc.page_count : Int)) then
        .error .invalidPage             -- `raise ValueError("Invalid page number")`
      else
        -- `page = doc.load_page(page_number - 1)`; in range under the guard
        let page := doc.pages.getD (page_number - 1).toNat default
        .ok (collectPageImages page.images 0,
             (page.rect.width, page.rect.height))

/-- `DocumentManager.replace_page_image` (lines 140-161).  `decode` models
PIL, `parse` models `fitz.open`, and `saveDelta doc xref pix` is the byte
suffix the engine's `page.replace_image` + incremental `doc.save` append to
the file.  Returns the operation outcome together with the resulting
store. -/
def replace_page_image (parse : List Nat → Option PDFDocument)
    (decode : List Nat → Option PILImage)
    (saveDelta : PDFDocument → Nat → Pixmap → List Nat)
    (store : Store) (doc_id : String) (page_number : Int)
    (image_index : Int) (new_image_bytes : List Nat) :
    Except AppError Unit × Store :=
  match store.lookup doc_id with
  | none => (.error .notFound, store)   -- `path = self._ensure_document(doc_id)`
  | some _ =>
    match list_page_images parse store doc_id page_number with
    | .error e => (.error e, store)     -- propagate (line 149)
    | .ok (images, _) =>
      -- `target = next((img for img in images if img.index == image_index), None)`
      match images.find? (fun img => (img.index : Int) == image_index) with
      | none => (.error .imageIndexNotFound, store)  -- lines 151-152
      | some target =>
        match pixmap_from_bytes decode new_image_bytes with
        | .error e => (.error e, store) -- decode failure, store untouched
        | .ok pix =>
          -- `with fitz.open(path) as doc: ... doc.save(path, incremental=True, ...)`
          match store.lookup doc_id with
          | none => (.error .notFound, store)
          | some fileBytes =>
            match parse fileBytes with
            | none => (.error .engineFailure, store)
            | some doc =>
              (.ok (), (doc_id, fileBytes ++ saveDelta doc target.xref pix)
                         :: store)

/-- `DocumentManager.save_pdf` (lines 66-74).  `freshId` models the
`uuid.uuid4().hex` value drawn for this call.  The uploaded bytes are
written to the store BEFORE `fitz.open` parses them. -/
def save_pdf (parse : List Nat → Option PDFDocument) (freshId : String)
    (store : Store) (file_bytes : List Nat) :
    Except AppError (String × Nat) × Store :=
  let store2 : Store := (freshId, file_bytes) :: store  -- `path.write_bytes(...)`
  match parse file_bytes with
  | none => (.error .engineFailure, store2)  -- `fitz.open` raised; file kept
  | some doc => (.ok (freshId, doc.page_count), store2)

/-- `DocumentManager.get_pdf_file` / the download operation: the stored
bytes, or `notFound`. -/
def get_pdf_file (store : Store) (doc_id : String) :
    Except AppError (List Nat) :=
  match store.lookup doc_id with
  | none => .error .notFound
  | some fileBytes => .ok fileBytes

/-! ## Path model (`_document_path`, lines 34-35)

`self.storage_root / f"{doc_id}.pdf"` with `pathlib` semantics: the string
is split on `'/'`; if it starts with `'/'` it is absolute and replaces the
root.  Paths are component lists of character lists; `resolvePath` is the
operating system's structural resolution of `.`, `..` and empty components
when the path is actually opened. -/

/-- Split a character list on `'/'` (how `pathlib` decomposes a string
argument into components). -/
def splitOnSlash : List Char → List (List Char)
  | [] => [[]]
  | c :: cs =>
    match splitOnSlash cs with
    | [] => [[c]]
    | seg :: segs =>
      if c = '/' then [] :: seg :: segs else (c :: seg) :: segs

/-- `DocumentManager._document_path`: `storage_root / f"{doc_id}.pdf"`. -/
def document_path (storage_root : List (List Char)) (doc_id : List Char) :
    List (List Char) :=
  let name := doc_id ++ ['.', 'p', 'd', 'f']
  if name.head? = some '/' then splitOnSlash name
  else storage_root ++ splitOnSlash name

/-- One step of structural path resolution: empty and `.` components vanish,
`..` pops the previous component, anything else is appended. -/
def resolveStep (acc : List (List Char)) (c : List Char) : List (List Char) :=
  if c = [] ∨ c = ['.'] then acc
  else if c = ['.', '.'] then acc.dropLast
  else acc ++ [c]

/-- Structural resolution of a component path, as the operating system
performs it when the path is opened. -/
def resolvePath (cs : List (List Char)) : List (List Char) :=
  cs.foldl resolveStep []

/-- The containment condition of spec §8: the box `(x0, y0, x1, y1)` lies
within `[0, w] × [0, h]`. -/
abbrev rectInBounds (r : Rect) (w h : ℚ) : Prop :=
  0 ≤ r.x0 ∧ r.x1 ≤ w ∧ 0 ≤ r.y0 ∧ r.y1 ≤ h

/-! ## Structural lemmas about the embedded operations -/

theorem emitOccurrences_length (xref : Nat) (info : ExtractInfo) :
    ∀ (rs : List Rect) (c : Nat),
      (emitOccurrences xref info rs c).length = rs.length := by
  intro rs
  induction rs with
  | nil => intro c; rfl
  | cons r rs ih => intro c; simpa [emitOccurrences] using ih (c + 1)

theorem emitOccurrences_index (xref : Nat) (info : ExtractInfo) :
    ∀ (rs : List Rect) (c k : Nat) (img : PageImage),
      (emitOccurrences xref info rs c)[k]? = some img → img.index = c + k := by
  intro rs
  induction rs with
  | nil => intro c k img h; simp [emitOccurrences] at h
  | cons r rs ih =>
    intro c k img h
    cases k with
    | zero =>
      simp only [emitOccurrences, List.getElem?_cons_zero, Option.some.injEq] at h
      subst h; rfl
    | succ k =>
      simp only [emitOccurrences, List.getElem?_cons_succ] at h
      have := ih (c + 1) k img h
      omega

theorem collectPageImages_index :
    ∀ (es : List ImageEntry) (c k : Nat) (img : PageImage),
      (collectPageImages es c)[k]? = some img → img.index = c + k := by
  intro es
  induction es with
  | nil => intro c k img h; simp [collectPageImages] at h
  | cons e rest ih =>
    intro c k img h
    by_cases hre : e.rects.isEmpty
    · rw [collectPageImages, if_pos hre] at h
      exact ih c k img h
    · rw [collectPageImages, if_neg hre] at h
      by_cases him : !e.isImageObj
      · rw [if_pos him] at h
        exact ih c k img h
      · rw [if_neg him] at h
        cases hex : e.extract with
        | none =>
          rw [hex] at h
          exact ih c k img h
        | some info =>
          rw [hex] at h
          dsimp only at h
          by_cases hhi : !info.hasImage
          · rw [if_pos hhi] at h
            exact ih c k img h
          · rw [if_neg hhi] at h
            rcases Nat.lt_or_ge k (emitOccurrences e.xref info e.rects c).length with hlt | hge
            · rw [List.getElem?_append_left hlt] at h
              exact emitOccurrences_index e.xref info e.rects c k img h
            · rw [List.getElem?_append_right hge] at h
              have := ih (c + e.rects.length) (k - (emitOccurrences e.xref info e.rects c).length) img h
              rw [emitOccurrences_length] at hge this
              omega

theorem emitOccurrences_mem (xref : Nat) (info : ExtractInfo) :
    ∀ (rs : List Rect) (c : Nat) (img : PageImage),
      img ∈ emitOccurrences xref info rs c →
      img.xref = xref ∧ img.bbox ∈ rs := by
  intro rs
  induction rs with
  | nil => intro c img h; simp [emitOccurrences] at h
  | cons r rs ih =>
    intro c img h
    rcases List.mem_cons.mp h with he | ht
    · subst he; exact ⟨rfl, List.mem_cons_self _ _⟩
    · obtain ⟨h1, h2⟩ := ih (c + 1) img ht
      exact ⟨h1, List.mem_cons_of_mem _ h2⟩

theorem collectPageImages_mem :
    ∀ (es : List ImageEntry) (c : Nat) (img : PageImage),
      img ∈ collectPageImages es c →
      ∃ e ∈ es, e.rects ≠ [] ∧ e.isImageObj = true ∧
        ∃ info, e.extract = some info ∧ info.hasImage = true ∧
          img.xref = e.xref ∧ img.bbox ∈ e.rects := by
  intro es
  induction es with
  | nil => intro c img h; simp [collectPageImages] at h
  | cons e rest ih =>
    intro c img h
    by_cases hre : e.rects.isEmpty
    · rw [collectPageImages, if_pos hre] at h
      obtain ⟨e2, he2, hrest⟩ := ih c img h
      exact ⟨e2, List.mem_cons_of_mem _ he2, hrest⟩
    · rw [collectPageImages, if_neg hre] at h
      by_cases him : !e.isImageObj
      · rw [if_pos him] at h
        obtain ⟨e2, he2, hrest⟩ := ih c img h
        exact ⟨e2, List.mem_cons_of_mem _ he2, hrest⟩
      · rw [if_neg him] at h
        cases hex : e.extract with
        | none =>
          rw [hex] at h
          obtain ⟨e2, he2, hrest⟩ := ih c img h
          exact ⟨e2, List.mem_cons_of_mem _ he2, hrest⟩
        | some info =>
          rw [hex] at h
          dsimp only at h
          by_cases hhi : !info.hasImage
          · rw [if_pos hhi] at h
            obtain ⟨e2, he2, hrest⟩ := ih c img h
            exact ⟨e2, List.mem_cons_of_mem _ he2, hrest⟩
          · rw [if_neg hhi] at h
            rcases List.mem_append.mp h with hl | hr
            · obtain ⟨h1, h2⟩ := emitOccurrences_mem e.xref info e.rects c img hl
              refine ⟨e, List.mem_cons_self _ _,
                by simpa using hre, by simpa using him, info, hex,
                by simpa using hhi, h1, h2⟩
            · obtain ⟨e2, he2, hrest⟩ := ih (c + e.rects.length) img hr
              exact ⟨e2, List.mem_cons_of_mem _ he2, hrest⟩

theorem find?_index_pos :
    ∀ (l : List PageImage) (c m : Nat),
      (∀ (k : Nat) (img : PageImage), l[k]? = some img → img.index = c + k) →
      c ≤ m → m - c < l.length →
      l.find? (fun img => (img.index : Int) == (m : Int)) = l[m - c]? := by
  intro l
  induction l with
  | nil => intro c m h hc hm; simp at hm
  | cons x xs ih =>
    intro c m h hc hm
    have hx : x.index = c := by simpa using h 0 x (by simp)
    by_cases hcm : c = m
    · subst hcm
      rw [List.find?_cons_of_pos _ (by simp [hx])]
      simp [Nat.sub_self]
    · rw [List.find?_cons_of_neg _ (by simp [hx]; omega)]
      have h2 : ∀ (k : Nat) (img : PageImage),
          xs[k]? = some img → img.index = (c + 1) + k := by
        intro k img hk
        have := h (k + 1) img (by simpa using hk)
        omega
      have hm2 : m - (c + 1) < xs.length := by
        simp only [List.length_cons] at hm; omega
      rw [ih (c + 1) m h2 (by omega) hm2]
      have hsub : m - c = (m - (c + 1)) + 1 := by omega
      rw [hsub, List.getElem?_cons_succ]

theorem find?_index_none (l : List PageImage) (t : Int)
    (h : ∀ img ∈ l, (img.index : Int) ≠ t) :
    l.find? (fun img => (img.index : Int) == t) = none := by
  apply List.find?_eq_none.mpr
  intro x hx
  simp [h x hx]

theorem list_page_images_ok_inv {parse : List Nat → Option PDFDocument}
    {store : Store} {doc_id : String} {pn : Int}
    {images : List PageImage} {sz : ℚ × ℚ}
    (h : list_page_images parse store doc_id pn = .ok (images, sz)) :
    ∃ fileBytes doc,
      store.lookup doc_id = some fileBytes ∧ parse fileBytes = some doc ∧
      1 ≤ pn ∧ pn ≤ (doc.page_count : Int) ∧
      images = collectPageImages
        (doc.pages.getD (pn - 1).toNat default).images 0 ∧
      sz = ((doc.pages.getD (pn - 1).toNat default).rect.width,
            (doc.pages.getD (pn - 1).toNat default).rect.height) := by
  unfold list_page_images at h
  cases hb : store.lookup doc_id with
  | none => rw [hb] at h; simp at h
  | some fileBytes =>
    rw [hb] at h
    dsimp only at h
    cases hp : parse fileBytes with
    | none => rw [hp] at h; simp at h
    | some doc =>
      rw [hp] at h
      dsimp only at h
      by_cases hpn : ¬ (1 ≤ pn ∧ pn ≤ (doc.page_count : Int))
      · rw [if_pos hpn] at h; simp at h
      · rw [if_neg hpn] at h
        rw [not_not] at hpn
        simp only [Except.ok.injEq, Prod.mk.injEq] at h
        exact ⟨fileBytes, doc, rfl, hp, hpn.1, hpn.2, h.1.symm, h.2.symm⟩

theorem list_page_images_eq_ok {parse : List Nat → Option PDFDocument}
    {store : Store} {doc_id : String} {pn : Int}
    {fileBytes : List Nat} {doc : PDFDocument}
    (hb : store.lookup doc_id = some fileBytes) (hp : parse fileBytes = some doc)
    (h1 : 1 ≤ pn) (h2 : pn ≤ (doc.page_count : Int)) :
    list_page_images parse store doc_id pn =
      .ok (collectPageImages (doc.pages.getD (pn - 1).toNat default).images 0,
           ((doc.pages.getD (pn - 1).toNat default).rect.width,
            (doc.pages.getD (pn - 1).toNat default).rect.height)) := by
  unfold list_page_images
  rw [hb]
  dsimp only
  rw [hp]
  dsimp only
  rw [if_neg (not_not_intro ⟨h1, h2⟩)]

theorem list_page_images_invalid {parse : List Nat → Option PDFDocument}
    {store : Store} {doc_id : String} {pn : Int}
    {fileBytes : List Nat} {doc : PDFDocument}
    (hb : store.lookup doc_id = some fileBytes) (hp : parse fileBytes = some doc)
    (hpn : ¬ (1 ≤ pn ∧ pn ≤ (doc.page_count : Int))) :
    list_page_images parse store doc_id pn = .error .invalidPage := by
  unfold list_page_images
  rw [hb]
  dsimp only
  rw [hp]
  dsimp only
  rw [if_pos hpn]

theorem packRGBA_length : ∀ ps : List RGBAVal, (packRGBA ps).length = 4 * ps.length := by
  intro ps
  induction ps with
  | nil => rfl
  | cons p ps ih => simp [packRGBA, ih]; omega

theorem packRGB_length : ∀ ps : List RGBAVal, (packRGB ps).length = 3 * ps.length := by
  intro ps
  induction ps with
  | nil => rfl
  | cons p ps ih => simp [packRGB, ih]; omega

theorem replace_notFound {parse : List Nat → Option PDFDocument}
    {decode : List Nat → Option PILImage}
    {saveDelta : PDFDocument → Nat → Pixmap → List Nat}
    {store : Store} {doc_id : String} {pn idx : Int} {nb : List Nat}
    (hb : store.lookup doc_id = none) :
    replace_page_image parse decode saveDelta store doc_id pn idx nb =
      (.error .notFound, store) := by
  unfold replace_page_image
  rw [hb]

theorem replace_listError {parse : List Nat → Option PDFDocument}
    {decode : List Nat → Option PILImage}
    {saveDelta : PDFDocument → Nat → Pixmap → List Nat}
    {store : Store} {doc_id : String} {pn idx : Int} {nb fileBytes : List Nat}
    {e : AppError}
    (hb : store.lookup doc_id = some fileBytes)
    (hl : list_page_images parse store doc_id pn = .error e) :
    replace_page_image parse decode saveDelta store doc_id pn idx nb =
      (.error e, store) := by
  unfold replace_page_image
  rw [hb]
  dsimp only
  rw [hl]

theorem replace_indexNotFound {parse : List Nat → Option PDFDocument}
    {decode : List Nat → Option PILImage}
    {saveDelta : PDFDocument → Nat → Pixmap → List Nat}
    {store : Store} {doc_id : String} {pn idx : Int} {nb fileBytes : List Nat}
    {images : List PageImage} {sz : ℚ × ℚ}
    (hb : store.lookup doc_id = some fileBytes)
    (hl : list_page_images parse store doc_id pn = .ok (images, sz))
    (hf : images.find? (fun img => (img.index : Int) == idx) = none) :
    replace_page_image parse decode saveDelta store doc_id pn idx nb =
      (.error .imageIndexNotFound, store) := by
  unfold replace_page_image
  rw [hb]
  dsimp only
  rw [hl]
  dsimp only
  rw [hf]

theorem replace_decodeError {parse : List Nat → Option PDFDocument}
    {decode : List Nat → Option PILImage}
    {saveDelta : PDFDocument → Nat → Pixmap → List Nat}
    {store : Store} {doc_id : String} {pn idx : Int} {nb fileBytes : List Nat}
    {images : List PageImage} {sz : ℚ × ℚ} {target : PageImage}
    (hb : store.lookup doc_id = some fileBytes)
    (hl : list_page_images parse store doc_id pn = .ok (images, sz))
    (hf : images.find? (fun img => (img.index : Int) == idx) = some target)
    (hd : decode nb = none) :
    replace_page_image parse decode saveDelta store doc_id pn idx nb =
      (.error .decodeError, store) := by
  unfold replace_page_image
  rw [hb]
  dsimp only
  rw [hl]
  dsimp only
  rw [hf]
  dsimp only
  unfold pixmap_from_bytes
  rw [hd]

theorem replace_ok_store {parse : List Nat → Option PDFDocument}
    {decode : List Nat → Option PILImage}
    {saveDelta : PDFDocument → Nat → Pixmap → List Nat}
    {store store2 : Store} {doc_id : String} {pn idx : Int}
    {nb oldBytes : List Nat}
    (hold : store.lookup doc_id = some oldBytes)
    (hrun : replace_page_image parse decode saveDelta store doc_id pn idx nb =
      (.ok (), store2)) :
    ∃ delta, store2 = (doc_id, oldBytes ++ delta) :: store := by
  unfold replace_page_image at hrun
  rw [hold] at hrun
  dsimp only at hrun
  cases hl : list_page_images parse store doc_id pn with
  | error e => rw [hl] at hrun; simp at hrun
  | ok res =>
    rw [hl] at hrun
    obtain ⟨images, sz⟩ := res
    dsimp only at hrun
    cases hf : images.find? (fun img => (img.index : Int) == idx) with
    | none => rw [hf] at hrun; simp at hrun
    | some target =>
      rw [hf] at hrun
      dsimp only at hrun
      cases hpm : pixmap_from_bytes decode nb with
      | error e => rw [hpm] at hrun; simp at hrun
      | ok pix =>
        rw [hpm] at hrun
        dsimp only at hrun
        cases hp : parse oldBytes with
        | none => rw [hp] at hrun; simp at hrun
        | some doc =>
          rw [hp] at hrun
          dsimp only at hrun
          simp only [Prod.mk.injEq] at hrun
          exact ⟨saveDelta doc target.xref pix, hrun.2.symm⟩

theorem splitOnSlash_no_slash :
    ∀ l : List Char, '/' ∉ l → splitOnSlash l = [l] := by
  intro l
  induction l with
  | nil => intro _; rfl
  | cons c cs ih =>
    intro h
    have hc : c ≠ '/' := fun e => h (e ▸ List.mem_cons_self _ _)
    have ht : splitOnSlash cs = [cs] :=
      ih (fun m => h (List.mem_cons_of_mem _ m))
    simp [splitOnSlash, ht, hc]

theorem foldl_resolveStep_clean :
    ∀ (cs acc : List (List Char)),
      (∀ c ∈ cs, c ≠ [] ∧ c ≠ ['.'] ∧ c ≠ ['.', '.']) →
      List.foldl resolveStep acc cs = acc ++ cs := by
  intro cs
  induction cs with
  | nil => intro acc _; simp
  | cons c cs ih =>
    intro acc h
    obtain ⟨h1, h2, h3⟩ := h c (List.mem_cons_self _ _)
    simp only [List.foldl_cons, resolveStep]
    rw [if_neg (by simp [h1, h2]), if_neg h3,
        ih (acc ++ [c]) (fun x hx => h x (List.mem_cons_of_mem _ hx))]
    simp

theorem resolvePath_clean (cs : List (List Char))
    (h : ∀ c ∈ cs, c ≠ [] ∧ c ≠ ['.'] ∧ c ≠ ['.', '.']) :
    resolvePath cs = cs := by
  unfold resolvePath
  rw [foldl_resolveStep_clean cs [] h]
  simp

/-! ## Concrete running examples (used by witnesses and counterexamples) -/

/-- An in-bounds placement rectangle. -/
def gRect : Rect := { x0 := 10, y0 := 20, x1 := 90, y1 := 80 }

/-- A 100 × 100 page rectangle with origin 0. -/
def gPageRect : Rect := { x0 := 0, y0 := 0, x1 := 100, y1 := 100 }

/-- An engine extraction answer with the `image` key present. -/
def gInfo : ExtractInfo :=
  { hasImage := true, image := [1], width := 7, height := 8, ext := "png" }

/-- A drawable image entry. -/
def gEntry : ImageEntry :=
  { xref := 9, rects := [gRect], isImageObj := true, extract := some gInfo }

/-- A soft-mask-style entry: no drawable placement rectangles. -/
def gMaskEntry : ImageEntry :=
  { xref := 11, rects := [], isImageObj := true, extract := some gInfo }

/-- A page carrying the mask entry first and the drawable entry second. -/
def gPage : Page := { rect := gPageRect, images := [gMaskEntry, gEntry] }

/-- A one-page document. -/
def gDoc : PDFDocument := { pages := [gPage] }

/-- The stored file bytes of the running example. -/
def gBytes : List Nat := [3]

/-- A parser behaviour recognising exactly the stored bytes. -/
def gParse : List Nat → Option PDFDocument :=
  fun b => if b = gBytes then some gDoc else none

/-- A store holding one document under identifier "d". -/
def gStore : Store := [("d", gBytes)]

/-- The single occurrence `list_page_images` reports for the example page. -/
def gImg : PageImage :=
  { index := 0, bbox := gRect, width := 7, height := 8, xref := 9,
    preview_base64 := [1], extension := "png" }

/-- A well-formed decoded RGB image (1 × 1, one pixel). -/
def gPIL : PILImage :=
  { mode := .RGB, width := 1, height := 1, pixels := [⟨1, 2, 3, 4⟩] }

/-- A well-formed decoded grayscale image. -/
def gPIL_L : PILImage :=
  { mode := .L, width := 1, height := 1, pixels := [⟨6, 6, 6, 255⟩] }

/-- A well-formed decoded RGBA image. -/
def gPIL_RGBA : PILImage :=
  { mode := .RGBA, width := 1, height := 1, pixels := [⟨1, 2, 3, 4⟩] }

/-- A decoder that accepts everything as the RGB example image. -/
def gDecode : List Nat → Option PILImage := fun _ => some gPIL

/-- A decoder that rejects everything (undecodable replacement bytes). -/
def noDecode : List Nat → Option PILImage := fun _ => none

/-- An engine incremental-save behaviour appending the byte 5. -/
def gDelta : PDFDocument → Nat → Pixmap → List Nat := fun _ _ _ => [5]

/-! ## Claims -/

/-- C8: in every list returned by `list_page_images` the occurrence at
position `k` carries `index = k` (indices are the contiguous range
`0..n-1`), and consequently `replace_page_image`'s search for the occurrence
whose `index` equals `target_index` coincides with positional lookup
`images[target_index]?` whenever `0 ≤ target_index < n`. -/
theorem C8_index_equals_position {parse : List Nat → Option PDFDocument}
    {store : Store} {doc_id : String} {pn : Int}
    {images : List PageImage} {sz : ℚ × ℚ}
    (h : list_page_images parse store doc_id pn = .ok (images, sz)) :
    (∀ (k : Nat) (img : PageImage), images[k]? = some img → img.index = k) ∧
    (∀ m : Nat, m < images.length →
      images.find? (fun img => (img.index : Int) == ((m : Nat) : Int)) =
        images[m]?) := by
  obtain ⟨fb, doc, hb, hp, h1, h2, himg, hsz⟩ := list_page_images_ok_inv h
  subst himg
  constructor
  · intro k img hk
    simpa using collectPageImages_index _ 0 k img hk
  · intro m hm
    have hpt : ∀ (k : Nat) (img : PageImage),
        (collectPageImages (doc.pages.getD (pn - 1).toNat default).images
          0)[k]? = some img → img.index = 0 + k := by
      intro k img hk
      simpa using collectPageImages_index _ 0 k img hk
    have := find?_index_pos _ 0 m hpt (Nat.zero_le m) (by simpa using hm)
    simpa using this

/-- C8 witness: the theorem applied to the concrete one-occurrence store. -/
theorem C8_witness :
    gImg.index = 0 ∧
    ([gImg].find? (fun img => (img.index : Int) == ((0 : Nat) : Int)) =
      [gImg][0]?) := by
  have h := @C8_index_equals_position gParse gStore "d" 1 [gImg]
    (gPageRect.width, gPageRect.height) rfl
  exact ⟨h.1 0 gImg rfl, h.2 0 (by decide)⟩

/-- A placement rectangle sticking out of a 100 × 100 page on both axes
(images placed partially off-page are commonplace in PDFs, and the engine's
`get_image_rects` reports their untruncated boxes). -/
def oobRect : Rect := { x0 := -5, y0 := 0, x1 := 200, y1 := 50 }

/-- A drawable entry whose placement rectangle leaves the page. -/
def oobEntry : ImageEntry :=
  { xref := 9, rects := [oobRect], isImageObj := true, extract := some gInfo }

/-- A page carrying the out-of-page placement. -/
def oobPage : Page := { rect := gPageRect, images := [oobEntry] }

/-- A one-page document with the out-of-page placement. -/
def oobDoc : PDFDocument := { pages := [oobPage] }

/-- A parser behaviour producing the out-of-page document. -/
def oobParse : List Nat → Option PDFDocument := fun _ => some oobDoc

/-- C1 counterexample: the code copies the engine's placement rectangles
into the bounding boxes verbatim, with no clipping against the page
rectangle, so a stored document whose engine-reported placement rectangle
leaves the page yields an occurrence whose `bounding_box` does NOT lie
within `[0, width] × [0, height]` of the returned page size — refuting the
containment part of the claim. -/
theorem C1_counterexample :
    list_page_images oobParse gStore "d" 1 =
      .ok ([{ index := 0, bbox := oobRect, width := 7, height := 8,
              xref := 9, preview_base64 := [1], extension := "png" }],
           (oobPage.rect.width, oobPage.rect.height)) ∧
    oobPage.rect.width = 100 ∧ oobPage.rect.height = 100 ∧
    ¬ rectInBounds oobRect 100 100 := by
  refine ⟨rfl, ?_, ?_, by decide⟩
  · show gPageRect.x1 - gPageRect.x0 = 100
    norm_num [gPageRect]
  · show gPageRect.y1 - gPageRect.y0 = 100
    norm_num [gPageRect]

/-- C1 (amended): for every stored document and valid page number,
`list_page_images` returns occurrences whose `index` fields are strictly
increasing starting at 0, and a resource with no drawable placement
rectangle never receives an index and never appears in the result; every
`bounding_box` is the engine-reported placement rectangle passed through
unclipped, so the boxes lie within `[0, width] × [0, height]` of the
returned page size exactly under the additional hypothesis that the
engine's reported placement rectangles for the page do. -/
theorem C1_amended {parse : List Nat → Option PDFDocument}
    {store : Store} {doc_id : String} {pn : Int}
    {images : List PageImage} {w h : ℚ}
    {fileBytes : List Nat} {doc : PDFDocument}
    (hok : list_page_images parse store doc_id pn = .ok (images, (w, h)))
    (hb : store.lookup doc_id = some fileBytes)
    (hp : parse fileBytes = some doc)
    (hrects : ∀ e ∈ (doc.pages.getD (pn - 1).toNat default).images,
      ∀ r ∈ e.rects,
        rectInBounds r (doc.pages.getD (pn - 1).toNat default).rect.width
          (doc.pages.getD (pn - 1).toNat default).rect.height) :
    (∀ (k l : Nat) (imgk imgl : PageImage), k < l →
      images[k]? = some imgk → images[l]? = some imgl →
      imgk.index < imgl.index) ∧
    (∀ img0 : PageImage, images[0]? = some img0 → img0.index = 0) ∧
    (∀ img ∈ images, rectInBounds img.bbox w h) ∧
    (∀ img ∈ images, ∃ e ∈ (doc.pages.getD (pn - 1).toNat default).images,
      e.rects ≠ [] ∧ img.xref = e.xref ∧ img.bbox ∈ e.rects) := by
  obtain ⟨fb2, doc2, hb2, hp2, h1, h2, himg, hsz⟩ := list_page_images_ok_inv hok
  rw [hb] at hb2
  injection hb2 with e1
  subst e1
  rw [hp] at hp2
  injection hp2 with e2
  subst e2
  subst himg
  simp only [Prod.mk.injEq] at hsz
  obtain ⟨hw, hh⟩ := hsz
  subst hw
  subst hh
  refine ⟨?_, ?_, ?_, ?_⟩
  · intro k l imgk imgl hkl hk hl
    have ek := collectPageImages_index _ 0 k imgk hk
    have el := collectPageImages_index _ 0 l imgl hl
    omega
  · intro img0 h0
    simpa using collectPageImages_index _ 0 0 img0 h0
  · intro img hmem
    obtain ⟨e, he, _, _, _, _, _, _, hbbox⟩ :=
      collectPageImages_mem _ 0 img hmem
    exact hrects e he img.bbox hbbox
  · intro img hmem
    obtain ⟨e, he, hne, _, _, _, _, hxref, hbbox⟩ :=
      collectPageImages_mem _ 0 img hmem
    exact ⟨e, he, hne, hxref, hbbox⟩

/-- C1 witness: the amended theorem applied to the concrete store whose
engine rectangles all lie inside the page. -/
theorem C1_witness :
    gImg.index = 0 ∧
    rectInBounds gImg.bbox gPageRect.width gPageRect.height ∧
    gImg.bbox ∈ gEntry.rects := by
  have h := @C1_amended gParse gStore "d" 1 [gImg] gPageRect.width
    gPageRect.height gBytes gDoc rfl rfl rfl ?_
  · refine ⟨h.2.1 gImg rfl, h.2.2.1 gImg (by simp), ?_⟩
    show gImg.bbox ∈ [gRect]
    simp [gImg]
  · intro e he r hr
    have he2 : e = gMaskEntry ∨ e = gEntry := by
      simpa [gDoc, gPage] using he
    rcases he2 with he2 | he2
    · subst he2
      simp [gMaskEntry] at hr
    · subst he2
      have hr2 : r = gRect := by simpa [gEntry] using hr
      subst hr2
      show (0 : ℚ) ≤ gRect.x0 ∧
        gRect.x1 ≤ gPageRect.x1 - gPageRect.x0 ∧
        (0 : ℚ) ≤ gRect.y0 ∧ gRect.y1 ≤ gPageRect.y1 - gPageRect.y0
      norm_num [gRect, gPageRect]

/-- C4: for every stored document, `list_page_images` with `page_number = 0`
or `page_number = page_count + 1` fails with `InvalidPageError`; and
`replace_page_image` on a valid page fails with `ImageIndexNotFoundError`
for `target_index = -1` (always) and for `target_index = 999999` whenever no
occurrence of the freshly recomputed list carries it (which holds as soon as
the list has at most 999999 entries, indices being `0..n-1`). -/
theorem C4_boundary_errors {parse : List Nat → Option PDFDocument}
    {decode : List Nat → Option PILImage}
    {saveDelta : PDFDocument → Nat → Pixmap → List Nat}
    {store : Store} {doc_id : String} {pn : Int} {nb fileBytes : List Nat}
    {doc : PDFDocument} {images : List PageImage} {sz : ℚ × ℚ}
    (hb : store.lookup doc_id = some fileBytes)
    (hp : parse fileBytes = some doc)
    (hlist : list_page_images parse store doc_id pn = .ok (images, sz)) :
    list_page_images parse store doc_id 0 = .error .invalidPage ∧
    list_page_images parse store doc_id ((doc.page_count : Int) + 1) =
      .error .invalidPage ∧
    replace_page_image parse decode saveDelta store doc_id pn (-1) nb =
      (.error .imageIndexNotFound, store) ∧
    (images.length ≤ 999999 →
      replace_page_image parse decode saveDelta store doc_id pn 999999 nb =
        (.error .imageIndexNotFound, store)) := by
  obtain ⟨fb2, doc2, hb2, hp2, h1, h2, himg, hsz⟩ := list_page_images_ok_inv hlist
  rw [hb] at hb2
  injection hb2 with e1
  subst e1
  rw [hp] at hp2
  injection hp2 with e2
  subst e2
  have hidx : ∀ img ∈ images, img.index < images.length := by
    intro img hmem
    obtain ⟨⟨k, hk⟩, hget⟩ := List.mem_iff_get.mp hmem
    have : images[k]? = some img := by
      rw [List.getElem?_eq_getElem hk]
      simpa using hget
    have := collectPageImages_index _ 0 k img (by rw [← himg]; exact this)
    omega
  refine ⟨?_, ?_, ?_, ?_⟩
  · exact list_page_images_invalid hb hp (by omega)
  · exact list_page_images_invalid hb hp (by omega)
  · refine replace_indexNotFound hb hlist (find?_index_none _ _ ?_)
    intro img _
    omega
  · intro hlen
    refine replace_indexNotFound hb hlist (find?_index_none _ _ ?_)
    intro img hmem
    have := hidx img hmem
    omega

/-- C4 witness: the boundary errors at the concrete one-page store. -/
theorem C4_witness :
    list_page_images gParse gStore "d" 0 = .error .invalidPage ∧
    list_page_images gParse gStore "d" ((gDoc.page_count : Int) + 1) =
      .error .invalidPage ∧
    replace_page_image gParse gDecode gDelta gStore "d" 1 (-1) [2] =
      (.error .imageIndexNotFound, gStore) ∧
    (([gImg] : List PageImage).length ≤ 999999 →
      replace_page_image gParse gDecode gDelta gStore "d" 1 999999 [2] =
        (.error .imageIndexNotFound, gStore)) :=
  @C4_boundary_errors gParse gDecode gDelta gStore "d" 1 [2] gBytes gDoc
    [gImg] (gPageRect.width, gPageRect.height) rfl rfl rfl

/-- C2: for a stored document, a valid page and a valid target index, if the
replacement bytes are not decodable then `replace_page_image` fails with
`DecodeError` and the store is returned unchanged (byte-for-byte): the
decode step runs before the document is opened for mutation, so no write
occurs. -/
theorem C2_decode_failure_leaves_store {parse : List Nat → Option PDFDocument}
    {decode : List Nat → Option PILImage}
    {saveDelta : PDFDocument → Nat → Pixmap → List Nat}
    {store : Store} {doc_id : String} {pn idx : Int} {nb : List Nat}
    {images : List PageImage} {sz : ℚ × ℚ} {target : PageImage}
    (hlist : list_page_images parse store doc_id pn = .ok (images, sz))
    (htarget : images.find? (fun img => (img.index : Int) == idx) =
      some target)
    (hdecode : decode nb = none) :
    replace_page_image parse decode saveDelta store doc_id pn idx nb =
      (.error .decodeError, store) := by
  obtain ⟨fb, doc, hb, _, _, _, _, _⟩ := list_page_images_ok_inv hlist
  exact replace_decodeError hb hlist htarget hdecode

/-- C2 witness: undecodable replacement bytes on the concrete store. -/
theorem C2_witness :
    replace_page_image gParse noDecode gDelta gStore "d" 1 0 [2] =
      (.error .decodeError, gStore) :=
  @C2_decode_failure_leaves_store gParse noDecode gDelta gStore "d" 1 0 [2]
    [gImg] (gPageRect.width, gPageRect.height) gImg rfl rfl rfl

/-- C3: after every successful `replace_page_image`, the stored bytes of the
document are the previous stored bytes with an engine-chosen suffix
appended, so downloading and truncating to the previous length returns
exactly the previous bytes — the incremental update only appends and never
rewrites the prefix (hence, inductively, the originally uploaded bytes stay
a byte-identical prefix). -/
theorem C3_incremental_append {parse : List Nat → Option PDFDocument}
    {decode : List Nat → Option PILImage}
    {saveDelta : PDFDocument → Nat → Pixmap → List Nat}
    {store store2 : Store} {doc_id : String} {pn idx : Int}
    {nb oldBytes : List Nat}
    (hold : store.lookup doc_id = some oldBytes)
    (hrun : replace_page_image parse decode saveDelta store doc_id pn idx nb =
      (.ok (), store2)) :
    (get_pdf_file store2 doc_id).map (fun b => b.take oldBytes.length) =
      .ok oldBytes := by
  obtain ⟨delta, hst⟩ := replace_ok_store hold hrun
  subst hst
  unfold get_pdf_file
  simp [List.lookup, Except.map, List.take_left]

/-- C3 witness: the concrete successful replacement appends `[5]` and the
original byte `3` remains the prefix. -/
theorem C3_witness :
    (get_pdf_file (("d", gBytes ++ [5]) :: gStore) "d").map
      (fun b => b.take gBytes.length) = .ok gBytes :=
  @C3_incremental_append gParse gDecode gDelta gStore
    (("d", gBytes ++ [5]) :: gStore) "d" 1 0 [2] gBytes rfl rfl

/-- C9: `replace_page_image` checks its failure conditions in a fixed
precedence order — an unknown `document_id` yields `NotFoundError` whatever
the page, index and bytes are; with a known document an out-of-range page
yields `InvalidPageError` before any index check; a missing index yields
`ImageIndexNotFoundError` whatever the replacement bytes and decoder
behaviour are (the bytes are never decoded).  In every case the store is
returned unchanged. -/
theorem C9_error_precedence {parse : List Nat → Option PDFDocument}
    {decode : List Nat → Option PILImage}
    {saveDelta : PDFDocument → Nat → Pixmap → List Nat}
    {store : Store} {doc_id : String} {pn idx : Int} {nb : List Nat} :
    (store.lookup doc_id = none →
      replace_page_image parse decode saveDelta store doc_id pn idx nb =
        (.error .notFound, store)) ∧
    (∀ (fileBytes : List Nat) (doc : PDFDocument),
      store.lookup doc_id = some fileBytes → parse fileBytes = some doc →
      ¬ (1 ≤ pn ∧ pn ≤ (doc.page_count : Int)) →
      replace_page_image parse decode saveDelta store doc_id pn idx nb =
        (.error .invalidPage, store)) ∧
    (∀ (fileBytes : List Nat) (images : List PageImage) (sz : ℚ × ℚ),
      store.lookup doc_id = some fileBytes →
      list_page_images parse store doc_id pn = .ok (images, sz) →
      (∀ img ∈ images, (img.index : Int) ≠ idx) →
      replace_page_image parse decode saveDelta store doc_id pn idx nb =
        (.error .imageIndexNotFound, store)) := by
  refine ⟨?_, ?_, ?_⟩
  · intro hb
    exact replace_notFound hb
  · intro fileBytes doc hb hp hpn
    exact replace_listError hb (list_page_images_invalid hb hp hpn)
  · intro fileBytes images sz hb hlist hnone
    exact replace_indexNotFound hb hlist (find?_index_none _ _ hnone)

/-- C9 witness: the three precedence cases at concrete inputs — unknown
identifier, page 0 of the known document, stale index 5; the third runs with
a decoder that rejects everything, showing the bytes are not decoded. -/
theorem C9_witness :
    replace_page_image gParse noDecode gDelta gStore "missing" 1 0 [2] =
      (.error .notFound, gStore) ∧
    replace_page_image gParse noDecode gDelta gStore "d" 0 0 [2] =
      (.error .invalidPage, gStore) ∧
    replace_page_image gParse noDecode gDelta gStore "d" 1 5 [2] =
      (.error .imageIndexNotFound, gStore) := by
  refine ⟨?_, ?_, ?_⟩
  · exact C9_error_precedence.1 rfl
  · exact C9_error_precedence.2.1 gBytes gDoc rfl rfl (by omega)
  · refine C9_error_precedence.2.2 gBytes [gImg]
      (gPageRect.width, gPageRect.height) rfl rfl ?_
    intro img hmem
    have : img = gImg := by simpa using hmem
    subst this
    decide

/-- C10: `save_pdf` writes the uploaded bytes to the store under the fresh
identifier BEFORE parsing them as a PDF, so on unparseable input the
operation fails after the file has been created: the error result carries no
identifier, yet the stored file exists and holds exactly the uploaded
bytes. -/
theorem C10_upload_not_atomic {parse : List Nat → Option PDFDocument}
    {freshId : String} {store : Store} {file_bytes : List Nat}
    (hbad : parse file_bytes = none) :
    save_pdf parse freshId store file_bytes =
      (.error .engineFailure, (freshId, file_bytes) :: store) ∧
    get_pdf_file ((freshId, file_bytes) :: store) freshId = .ok file_bytes := by
  constructor
  · unfold save_pdf
    rw [hbad]
  · unfold get_pdf_file
    simp [List.lookup]

/-- C10 witness: uploading unparseable bytes to the concrete store. -/
theorem C10_witness :
    save_pdf gParse "fresh" gStore [4] =
      (.error .engineFailure, ("fresh", [4]) :: gStore) ∧
    get_pdf_file (("fresh", [4]) :: gStore) "fresh" = .ok [4] :=
  C10_upload_not_atomic (by decide)

/-- C5: for every decodable input to `_pixmap_from_bytes`: a decoded mode
other than RGB/RGBA yields a 4-channel RGBA pixmap (the converted image's
RGBA packing); a decoded RGB image yields an RGB pixmap whose samples are
exactly the image's own bytes (no alpha synthesized); a decoded RGBA image
yields an RGBA pixmap whose samples are exactly the image's own bytes. -/
theorem C5_mode_normalization {decode : List Nat → Option PILImage}
    {raw : List Nat} {img : PILImage}
    (hdec : decode raw = some img) :
    (img.mode ≠ .RGB ∧ img.mode ≠ .RGBA →
      pixmap_from_bytes decode raw =
        .ok { colorspace := .csRGBA, width := img.width,
              height := img.height, samples := packRGBA img.pixels }) ∧
    (img.mode = .RGB →
      pixmap_from_bytes decode raw =
        .ok { colorspace := .csRGB, width := img.width,
              height := img.height, samples := img.tobytes }) ∧
    (img.mode = .RGBA →
      pixmap_from_bytes decode raw =
        .ok { colorspace := .csRGBA, width := img.width,
              height := img.height, samples := img.tobytes }) := by
  refine ⟨?_, ?_, ?_⟩
  · intro hmode
    unfold pixmap_from_bytes
    rw [hdec]
    simp [hmode.1, hmode.2, PILImage.convert, PILImage.tobytes]
  · intro hmode
    unfold pixmap_from_bytes
    rw [hdec]
    simp [hmode, PILImage.convert, PILImage.tobytes]
  · intro hmode
    unfold pixmap_from_bytes
    rw [hdec]
    simp [hmode, PILImage.convert, PILImage.tobytes]

/-- C5 witness: the three branches at concrete grayscale, RGB and RGBA
decoded images. -/
theorem C5_witness :
    (gPIL_L.mode ≠ .RGB ∧ gPIL_L.mode ≠ .RGBA) ∧
    pixmap_from_bytes (fun _ => some gPIL_L) [] =
      .ok { colorspace := .csRGBA, width := gPIL_L.width,
            height := gPIL_L.height, samples := packRGBA gPIL_L.pixels } ∧
    pixmap_from_bytes gDecode [] =
      .ok { colorspace := .csRGB, width := gPIL.width,
            height := gPIL.height, samples := gPIL.tobytes } ∧
    pixmap_from_bytes (fun _ => some gPIL_RGBA) [] =
      .ok { colorspace := .csRGBA, width := gPIL_RGBA.width,
            height := gPIL_RGBA.height, samples := gPIL_RGBA.tobytes } :=
  ⟨by decide,
   (@C5_mode_normalization (fun _ => some gPIL_L) [] gPIL_L rfl).1
     (by decide),
   (@C5_mode_normalization gDecode [] gPIL rfl).2.1 rfl,
   (@C5_mode_normalization (fun _ => some gPIL_RGBA) [] gPIL_RGBA
      rfl).2.2 rfl⟩

/-- A decoded image whose reported dimensions (2 × 2) disagree with its
pixel payload (one pixel) — the decoder-bug situation spec §4.1 insists the
implementation must assert against. -/
def c6Img : PILImage :=
  { mode := .RGB, width := 2, height := 2, pixels := [⟨1, 2, 3, 4⟩] }

/-- C6 counterexample: `_pixmap_from_bytes` contains no assertion that the
samples length equals `width * height * channel_count`; a decoder-produced
mismatch is NOT rejected — the function returns a pixmap (no error) whose
samples buffer has length 3 while `width * height * channels = 12`, handing
the mismatched buffer on to the engine. -/
theorem C6_counterexample :
    pixmap_from_bytes (fun _ => some c6Img) [] =
      .ok { colorspace := .csRGB, width := 2, height := 2,
            samples := [1, 2, 3] } ∧
    ¬ (([1, 2, 3] : List Nat).length =
        2 * 2 * Colorspace.channels .csRGB) := by
  exact ⟨rfl, by decide⟩

/-- C6 (amended): the implementation performs no length assertion — the
buffer is handed to the engine exactly as the decoder/converter packs it —
so the pixmap's samples length equals
`width * height * channel_count` precisely when the decoded image's pixel
count equals `width * height` (well-formed decoder output), and for no other
decoder output is anything rejected. -/
theorem C6_no_length_assertion {decode : List Nat → Option PILImage}
    {raw : List Nat} {img : PILImage} {pm : Pixmap}
    (hdec : decode raw = some img)
    (hok : pixmap_from_bytes decode raw = .ok pm) :
    pm.samples.length = pm.width * pm.height * pm.colorspace.channels ↔
      img.pixels.length = img.width * img.height := by
  unfold pixmap_from_bytes at hok
  rw [hdec] at hok
  dsimp only at hok
  obtain ⟨mode, w, h, ps⟩ := img
  cases mode <;>
    [skip; skip; skip; skip; skip] <;>
    · simp [PILImage.convert, PILImage.tobytes] at hok
      subst hok
      simp only [packRGBA_length, packRGB_length, Colorspace.channels]
      generalize w * h = t
      omega

/-- C6 witness: the amended theorem at a well-formed 1 × 1 RGB image. -/
theorem C6_witness :
    (packRGB gPIL.pixels).length =
      gPIL.width * gPIL.height * Colorspace.channels .csRGB ↔
    gPIL.pixels.length = gPIL.width * gPIL.height :=
  @C6_no_length_assertion gDecode [] gPIL
    { colorspace := .csRGB, width := gPIL.width, height := gPIL.height,
      samples := packRGB gPIL.pixels } rfl rfl

/-- The storage-root component list of the path examples. -/
def c7Root : List (List Char) := [['s', 't', 'o', 'r', 'e']]

/-- C7 counterexample: `_document_path` interpolates the identifier into the
path with no sanitisation, so identifiers containing path separators break
both uniqueness and containment: the distinct identifiers "a" and "./a"
resolve to the same stored file, and the identifier "../evil" resolves to a
file outside the document store root. -/
theorem C7_counterexample :
    (['a'] : List Char) ≠ ['.', '/', 'a'] ∧
    resolvePath (document_path c7Root ['a']) =
      resolvePath (document_path c7Root ['.', '/', 'a']) ∧
    (resolvePath (document_path c7Root
        ['.', '.', '/', 'e', 'v', 'i', 'l'])).take c7Root.length ≠
      c7Root := by
  refine ⟨by decide, by decide, by decide⟩

/-- C7 (amended): document-identifier resolution never performs a partial
match — the stored path is the root extended by the single component
`doc_id ++ ".pdf"` — and for identifiers free of the path separator (as all
identifiers the system itself generates are: `uuid4().hex` strings),
resolution is injective and always lands inside the document store;
identifiers containing separators or dot components may collide or escape
the store, as the counterexample shows. -/
theorem C7_no_partial_match (storage_root : List (List Char))
    (d1 d2 : List Char)
    (hroot : ∀ c ∈ storage_root, c ≠ [] ∧ c ≠ ['.'] ∧ c ≠ ['.', '.'])
    (h1 : '/' ∉ d1) (h2 : '/' ∉ d2) :
    resolvePath (document_path storage_root d1) =
      storage_root ++ [d1 ++ ['.', 'p', 'd', 'f']] ∧
    (resolvePath (document_path storage_root d1) =
      resolvePath (document_path storage_root d2) → d1 = d2) ∧
    (resolvePath (document_path storage_root d1)).take storage_root.length =
      storage_root := by
  have key : ∀ d : List Char, '/' ∉ d →
      resolvePath (document_path storage_root d) =
        storage_root ++ [d ++ ['.', 'p', 'd', 'f']] := by
    intro d hd
    have hname : '/' ∉ d ++ ['.', 'p', 'd', 'f'] := by
      intro hm
      rcases List.mem_append.mp hm with hm | hm
      · exact hd hm
      · simp at hm
    have hhead : ¬ (d ++ ['.', 'p', 'd', 'f']).head? = some '/' := by
      cases d with
      | nil => simp
      | cons c cs =>
        simp only [List.cons_append, List.head?_cons, Option.some.injEq]
        intro he
        exact hd (he ▸ List.mem_cons_self _ _)
    unfold document_path
    rw [if_neg hhead, splitOnSlash_no_slash _ hname]
    apply resolvePath_clean
    intro c hc
    rcases List.mem_append.mp hc with hc | hc
    · exact hroot c hc
    · have hc2 : c = d ++ ['.', 'p', 'd', 'f'] := by simpa using hc
      subst hc2
      have hlen : (d ++ ['.', 'p', 'd', 'f']).length = d.length + 4 := by
        simp
      refine ⟨?_, ?_, ?_⟩ <;> intro he <;> rw [he] at hlen <;> simp at hlen
  refine ⟨key d1 h1, ?_, ?_⟩
  · intro heq
    rw [key d1 h1, key d2 h2] at heq
    have := List.append_cancel_left heq
    have := List.cons.injEq _ _ _ _ ▸ this
    have hnames : d1 ++ ['.', 'p', 'd', 'f'] = d2 ++ ['.', 'p', 'd', 'f'] := by
      simpa using this
    exact List.append_cancel_right hnames
  · rw [key d1 h1]
    exact List.take_left _ _

/-- C7 witness: two concrete separator-free identifiers under the concrete
store root. -/
theorem C7_witness :
    resolvePath (document_path c7Root ['a']) =
      c7Root ++ [['a', '.', 'p', 'd', 'f']] ∧
    (resolvePath (document_path c7Root ['a']) =
      resolvePath (document_path c7Root ['b']) → ['a'] = ['b']) ∧
    (resolvePath (document_path c7Root ['a'])).take c7Root.length =
      c7Root :=
  C7_no_partial_match c7Root ['a'] ['b'] (by decide) (by decide) (by decide)
